import Mathlib

/-!
Verification development for the rapid-storage upload pipeline.

The definitions below are a shallow embedding of the TypeScript source:

* `SAFE_LIMITS` and the validator helpers mirror `src/config/safeLimits.ts`
  (`isFileSizeValid`, `isFileTypeAllowed`, `isFileNameValid`,
  `getTotalUploadSize`, `isUploadSizeValid`, `getFileTypeCategory`).
* JavaScript numbers used for byte sizes are modelled as `Int` (all byte
  counts in the relevant code paths are integers well inside the safe
  double range).

Theorems are stated over these definitions and settle the frozen claims
about the specification.
-/

namespace SAFE_LIMITS

/-- Maximum size of a single file in bytes: 5 GiB, from safeLimits.ts. -/
def MAX_FILE_SIZE : Int := 5 * 1024 * 1024 * 1024

/-- Maximum total size of one upload session in bytes: 10 GiB. -/
def MAX_TOTAL_SIZE_PER_UPLOAD : Int := 10 * 1024 * 1024 * 1024

/-- Maximum number of files in one upload session. -/
def MAX_FILES_PER_UPLOAD : Nat := 100

/-- Maximum concurrent uploads, the window size of the batch controller. -/
def MAX_CONCURRENT_UPLOADS : Nat := 3

/-- Maximum length of a file name. -/
def MAX_FILE_NAME_LENGTH : Nat := 255

/-- Allow-list of image MIME types from safeLimits.ts. -/
def ALLOWED_IMAGE_TYPES : List String :=
  ["image/jpeg", "image/png", "image/gif", "image/webp", "image/heic",
   "image/heif"]

/-- Allow-list of video MIME types from safeLimits.ts. -/
def ALLOWED_VIDEO_TYPES : List String :=
  ["video/mp4", "video/mov", "video/avi", "video/mkv", "video/webm"]

/-- Allow-list of document MIME types from safeLimits.ts. -/
def ALLOWED_DOCUMENT_TYPES : List String :=
  ["application/pdf", "application/msword",
   "application/vnd.openxmlformats-officedocument.wordprocessingml.document",
   "application/vnd.ms-excel",
   "application/vnd.openxmlformats-officedocument.spreadsheetml.sheet",
   "application/vnd.ms-powerpoint",
   "application/vnd.openxmlformats-officedocument.presentationml.presentation",
   "text/plain", "text/csv", "application/zip",
   "application/x-rar-compressed", "application/x-7z-compressed"]

end SAFE_LIMITS

/-- Boolean test that one character list begins with another. -/
def startsWithChars : List Char → List Char → Bool
  | _, [] => true
  | [], _ :: _ => false
  | c :: cs, d :: ds => c == d && startsWithChars cs ds

/-- Executable embedding of the JavaScript `String.prototype.startsWith`
used by the validators; defined over the character list so that concrete
instances reduce inside the kernel. -/
def strStartsWith (s pattern : String) : Bool :=
  startsWithChars s.data pattern.data

/-- Embedding of `isFileSizeValid` from safeLimits.ts:
`size > 0 && size <= SAFE_LIMITS.MAX_FILE_SIZE`. -/
def isFileSizeValid (size : Int) : Bool :=
  decide (0 < size) && decide (size ≤ SAFE_LIMITS.MAX_FILE_SIZE)

/-- Embedding of `isFileTypeAllowed` from safeLimits.ts: membership in the
concatenated allow-lists, or an `image/` or `video/` type string. -/
def isFileTypeAllowed (mimeType : String) : Bool :=
  let allAllowedTypes :=
    SAFE_LIMITS.ALLOWED_IMAGE_TYPES ++ SAFE_LIMITS.ALLOWED_VIDEO_TYPES ++
      SAFE_LIMITS.ALLOWED_DOCUMENT_TYPES
  allAllowedTypes.contains mimeType || strStartsWith mimeType "image/" ||
    strStartsWith mimeType "video/"

/-- Embedding of `isFileNameValid` from safeLimits.ts. -/
def isFileNameValid (name : String) : Bool :=
  decide (0 < name.length) && decide (name.length ≤ SAFE_LIMITS.MAX_FILE_NAME_LENGTH)

/-- Category assigned to a MIME type by `getFileTypeCategory`. -/
inductive FileTypeCategory where
  | image
  | video
  | document
  | other
  deriving DecidableEq, Repr

/-- Embedding of `getFileTypeCategory` from safeLimits.ts. -/
def getFileTypeCategory (mimeType : String) : FileTypeCategory :=
  if SAFE_LIMITS.ALLOWED_IMAGE_TYPES.contains mimeType ||
      strStartsWith mimeType "image/" then .image
  else if SAFE_LIMITS.ALLOWED_VIDEO_TYPES.contains mimeType ||
      strStartsWith mimeType "video/" then .video
  else if SAFE_LIMITS.ALLOWED_DOCUMENT_TYPES.contains mimeType then .document
  else .other

/-- Queue entry of the upload screen (`FileToUpload` in part_003): display
name, local resource location, MIME type and byte size. The `selected`
flag of the source only drives bulk selection in the UI and is not part of
the transfer pipeline, so it is omitted here. -/
structure FileToUpload where
  name : String
  uri : String
  fileType : String
  size : Int
  deriving DecidableEq, Repr

/-- Embedding of `getTotalUploadSize`: reduce over the sizes starting
at 0. -/
def getTotalUploadSize (files : List FileToUpload) : Int :=
  files.foldl (fun total file => total + file.size) 0

/-- Embedding of `isUploadSizeValid`: the batch-level size check against
MAX_TOTAL_SIZE_PER_UPLOAD. -/
def isUploadSizeValid (files : List FileToUpload) : Bool :=
  decide (getTotalUploadSize files ≤ SAFE_LIMITS.MAX_TOTAL_SIZE_PER_UPLOAD)

/-- Per-asset validation sequence of `pickFiles` in the upload screen:
name check, then size check, then type check, each short-circuiting with
the reason string pushed onto `invalidFiles` in the source. Returns
`none` when the asset is admitted to the queue. -/
def validateAsset (name mimeType : String) (size : Int) : Option String :=
  if !isFileNameValid name then some "invalid name"
  else if !isFileSizeValid size then some "file too large"
  else if !isFileTypeAllowed mimeType then some "unsupported file type"
  else none

/-- C6: a candidate with byteSize ≤ 0 or byteSize > MAX_FILE_SIZE (5 GiB)
fails the size check and is rejected with the size-related reason
"file too large"; every candidate with 0 < byteSize ≤ MAX_FILE_SIZE passes
the size check. -/
theorem isFileSizeValid_bounds (size : Int) :
    (isFileSizeValid size = true ↔ 0 < size ∧ size ≤ SAFE_LIMITS.MAX_FILE_SIZE)
    ∧ (∀ name mimeType, isFileNameValid name = true →
        (size ≤ 0 ∨ SAFE_LIMITS.MAX_FILE_SIZE < size) →
        validateAsset name mimeType size = some "file too large") := by
  constructor
  · simp [isFileSizeValid]
  · intro name mimeType hname hbad
    have hsz : isFileSizeValid size = false := by
      rcases hbad with h | h <;>
        simp [isFileSizeValid, SAFE_LIMITS.MAX_FILE_SIZE] at h ⊢ <;> omega
    simp [validateAsset, hname, hsz]

/-- Witness: a candidate of size -5 bytes is rejected as "file too large". -/
theorem isFileSizeValid_bounds_witness :
    validateAsset "a.txt" "text/plain" (-5) = some "file too large" :=
  (isFileSizeValid_bounds (-5)).2 "a.txt" "text/plain" (by decide)
    (Or.inl (by decide))

/-- C7: the MIME-type check accepts exactly the members of the three
allow-lists together with every type starting with image/ or video/; a
candidate with valid name and size is admitted iff its type is accepted,
and otherwise is rejected with the type-related reason
"unsupported file type". -/
theorem isFileTypeAllowed_characterization (mimeType : String) :
    (isFileTypeAllowed mimeType = true ↔
      (mimeType ∈ SAFE_LIMITS.ALLOWED_IMAGE_TYPES ∨
       mimeType ∈ SAFE_LIMITS.ALLOWED_VIDEO_TYPES ∨
       mimeType ∈ SAFE_LIMITS.ALLOWED_DOCUMENT_TYPES ∨
       strStartsWith mimeType "image/" = true ∨
       strStartsWith mimeType "video/" = true))
    ∧ (∀ name size, isFileNameValid name = true → isFileSizeValid size = true →
        (validateAsset name mimeType size = none ↔
          isFileTypeAllowed mimeType = true)
        ∧ (isFileTypeAllowed mimeType = false →
          validateAsset name mimeType size = some "unsupported file type")) := by
  constructor
  · simp [isFileTypeAllowed, List.contains, List.elem_iff, or_assoc]
  · intro name size hname hsize
    constructor
    · cases hT : isFileTypeAllowed mimeType <;>
        simp [validateAsset, hname, hsize, hT]
    · intro hT
      simp [validateAsset, hname, hsize, hT]

/-- Witness: the document type text/plain is admitted when name and size
are valid, and an unknown type is rejected with the type-related reason. -/
theorem isFileTypeAllowed_characterization_witness :
    validateAsset "a.txt" "text/plain" 3 = none ∧
    validateAsset "a.bin" "application/unknown" 3 =
      some "unsupported file type" :=
  ⟨((isFileTypeAllowed_characterization "text/plain").2 "a.txt" 3 (by decide)
      (by decide)).1.mpr (by decide),
   ((isFileTypeAllowed_characterization "application/unknown").2 "a.bin" 3
      (by decide) (by decide)).2 (by decide)⟩

/-- C10: the admission predicate isFileTypeAllowed and the categorizer
getFileTypeCategory agree on exactly the same set of MIME types: a type is
allowed iff its category is not FileTypeCategory.other. -/
theorem isFileTypeAllowed_iff_category (mimeType : String) :
    isFileTypeAllowed mimeType = true ↔
      getFileTypeCategory mimeType ≠ FileTypeCategory.other := by
  by_cases hI : mimeType ∈ SAFE_LIMITS.ALLOWED_IMAGE_TYPES <;>
  by_cases hV : mimeType ∈ SAFE_LIMITS.ALLOWED_VIDEO_TYPES <;>
  by_cases hD : mimeType ∈ SAFE_LIMITS.ALLOWED_DOCUMENT_TYPES <;>
  by_cases hsi : strStartsWith mimeType "image/" = true <;>
  by_cases hsv : strStartsWith mimeType "video/" = true <;>
  simp_all [isFileTypeAllowed, getFileTypeCategory, List.contains,
    List.elem_iff]

/-- Admission step of `pickFiles` in the upload screen once per-item
validation has produced `validFiles`: the batch-level size check runs over
the existing queue contents plus the incoming group, the whole group is
dropped when the combined total exceeds the cap, and otherwise the group
is appended, trimmed to the MAX_FILES_PER_UPLOAD queue capacity. -/
def pickFilesAdmit (files validFiles : List FileToUpload) :
    List FileToUpload :=
  let allFilesForUpload := files ++ validFiles
  if !isUploadSizeValid allFilesForUpload then files
  else if files.length + validFiles.length > SAFE_LIMITS.MAX_FILES_PER_UPLOAD then
    files ++ validFiles.take (SAFE_LIMITS.MAX_FILES_PER_UPLOAD - files.length)
  else files ++ validFiles

/-- C5: admission re-evaluates the byte total of the existing queue plus
the incoming candidates against MAX_TOTAL_SIZE_PER_UPLOAD; when that total
exceeds the cap the whole incoming group is rejected and the queue is left
unchanged, and in every case the already-admitted items remain at the
front of the resulting queue, never retroactively rejected. -/
theorem pickFilesAdmit_totalSizeCheck (files validFiles : List FileToUpload) :
    (SAFE_LIMITS.MAX_TOTAL_SIZE_PER_UPLOAD <
        getTotalUploadSize (files ++ validFiles) →
      pickFilesAdmit files validFiles = files)
    ∧ (∃ admitted, pickFilesAdmit files validFiles = files ++ admitted) := by
  constructor
  · intro h
    have hinv : isUploadSizeValid (files ++ validFiles) = false := by
      simp only [isUploadSizeValid, decide_eq_false_iff_not, not_le]
      exact h
    simp [pickFilesAdmit, hinv]
  · simp only [pickFilesAdmit]
    split_ifs with h1 h2
    · exact ⟨[], by simp⟩
    · exact ⟨_, rfl⟩
    · exact ⟨validFiles, rfl⟩

/-- Witness: a queue holding 4 GiB + 4 GiB and an incoming 3 GiB file
total 11 GiB, above the 10 GiB cap, so the incoming group is rejected and
the queue is unchanged. -/
theorem pickFilesAdmit_totalSizeCheck_witness :
    pickFilesAdmit
      [⟨"a.bin", "file:///a", "application/zip", 4 * 1024 * 1024 * 1024⟩,
       ⟨"b.bin", "file:///b", "application/zip", 4 * 1024 * 1024 * 1024⟩]
      [⟨"c.bin", "file:///c", "application/zip", 3 * 1024 * 1024 * 1024⟩] =
      [⟨"a.bin", "file:///a", "application/zip", 4 * 1024 * 1024 * 1024⟩,
       ⟨"b.bin", "file:///b", "application/zip", 4 * 1024 * 1024 * 1024⟩] :=
  (pickFilesAdmit_totalSizeCheck _ _).1 (by decide)

/-- Windowing step of the batch controller in the upload mutation: the
source loop `for (let i = 0; i < files.length; i += batchSize)` slices the
queue into consecutive windows `slice(i, i + batchSize)`. With `k = 0` the
source loop would never advance; that branch is unreachable because the
window size is the constant MAX_CONCURRENT_UPLOADS = 3. -/
def chunkList {α : Type} (k : Nat) (l : List α) : List (List α) :=
  match l with
  | [] => []
  | x :: xs =>
    if k = 0 then [x :: xs]
    else (x :: xs).take k :: chunkList k ((x :: xs).drop k)
termination_by l.length
decreasing_by
  rename_i hk
  simp only [List.length_drop, List.length_cons]
  omega

/-- Chunking the empty queue yields no windows. -/
theorem chunkList_nil {α : Type} (k : Nat) : chunkList k ([] : List α) = [] := by
  simp [chunkList]

/-- Auxiliary induction on a length bound: concatenating the windows
recovers the original queue. -/
theorem chunkList_flatten_aux {α : Type} (k : Nat) :
    ∀ (n : Nat) (l : List α), l.length ≤ n → (chunkList k l).flatten = l := by
  intro n
  induction n with
  | zero =>
    intro l hl
    have h : l = [] := List.eq_nil_of_length_eq_zero (Nat.le_zero.mp hl)
    subst h
    simp [chunkList_nil]
  | succ n ih =>
    intro l hl
    match l with
    | [] => simp [chunkList_nil]
    | x :: xs =>
      rw [chunkList]
      split
      · simp
      · rename_i hk
        simp only [List.flatten_cons]
        rw [ih ((x :: xs).drop k) ?_, List.take_append_drop]
        simp only [List.length_drop, List.length_cons]
        simp only [List.length_cons] at hl
        omega

/-- The windows partition the queue: their concatenation is the queue. -/
theorem chunkList_flatten {α : Type} (k : Nat) (l : List α) :
    (chunkList k l).flatten = l :=
  chunkList_flatten_aux k l.length l le_rfl

/-- Auxiliary induction on a length bound: every window is nonempty and
holds at most k items. -/
theorem chunkList_mem_aux {α : Type} (k : Nat) (hk : k ≠ 0) :
    ∀ (n : Nat) (l : List α), l.length ≤ n →
      ∀ c ∈ chunkList k l, c.length ≤ k ∧ c ≠ [] := by
  intro n
  induction n with
  | zero =>
    intro l hl
    have h : l = [] := List.eq_nil_of_length_eq_zero (Nat.le_zero.mp hl)
    subst h
    intro c hc
    simp [chunkList_nil] at hc
  | succ n ih =>
    intro l hl
    match l with
    | [] => intro c hc; simp [chunkList_nil] at hc
    | x :: xs =>
      rw [chunkList, if_neg hk]
      intro c hc
      rcases List.mem_cons.mp hc with rfl | hc
      · refine ⟨List.length_take_le _ _, ?_⟩
        match k, hk with
        | k + 1, _ => simp [List.take_succ_cons]
      · refine ih ((x :: xs).drop k) ?_ c hc
        simp only [List.length_drop, List.length_cons]
        simp only [List.length_cons] at hl
        omega

/-- Every window produced by the batch controller is nonempty and holds at
most k items. -/
theorem chunkList_mem {α : Type} (k : Nat) (hk : k ≠ 0) (l : List α) :
    ∀ c ∈ chunkList k l, c.length ≤ k ∧ c ≠ [] :=
  chunkList_mem_aux k hk l.length l le_rfl

/-- Response of the get-presigned-url action consumed by the client:
the transfer endpoint, the backend-generated object key, and the form
fields to attach before the binary file field. -/
structure PresignData where
  uploadUrl : String
  s3Key : String
  formData : List (String × String)
  deriving DecidableEq, Repr

/-- Value returned for one successfully uploaded file: its name and the
id of the created file record. -/
structure UploadResult where
  fileName : String
  fileId : String
  deriving DecidableEq, Repr

/-- Environment supplying the outcome of each network round trip of the
upload pipeline: the broker presign call, the object-store POST (true
means an HTTP 2xx status, `uploadResponse.ok`), and the broker
create-file-record call returning the new record id. -/
structure UploadEnv where
  presign : FileToUpload → Except String PresignData
  s3UploadOk : FileToUpload → PresignData → Bool
  createRecord : FileToUpload → String → Except String String

/-- Per-item execution of the upload state machine, following the async
closure inside `uploadMutation.mutationFn`: get the presigned URL, POST
the bytes to the object store, then create the file record; any failure
short-circuits with the error that the source rethrows inside the item
task. -/
def perFileUpload (env : UploadEnv) (file : FileToUpload) :
    Except String UploadResult :=
  match env.presign file with
  | .error e => .error e
  | .ok presignedData =>
    if env.s3UploadOk file presignedData then
      match env.createRecord file presignedData.s3Key with
      | .error e => .error e
      | .ok fileId => .ok ⟨file.name, fileId⟩
    else .error ("S3 upload failed for " ++ file.name)

/-- Result collection for one settled window: `Promise.allSettled` yields
every item outcome in order and the loop pushes only the fulfilled values
onto `results`, logging the rejected ones. -/
def settledResults (env : UploadEnv) (batch : List FileToUpload) :
    List UploadResult :=
  batch.filterMap (fun file => (perFileUpload env file).toOption)

/-- Window loop of the batch controller: windows run strictly in
sequence and each contributes its fulfilled results in order. -/
def runBatchWindows (env : UploadEnv) :
    List (List FileToUpload) → List UploadResult
  | [] => []
  | batch :: rest => settledResults env batch ++ runBatchWindows env rest

/-- Embedding of `uploadMutation.mutationFn` from the upload screen: the
total-size precheck throws, then the queue is processed in windows of
MAX_CONCURRENT_UPLOADS and the fulfilled results are returned. -/
def uploadMutationFn (env : UploadEnv) (filesToUpload : List FileToUpload) :
    Except String (List UploadResult) :=
  if SAFE_LIMITS.MAX_TOTAL_SIZE_PER_UPLOAD < getTotalUploadSize filesToUpload
  then .error "Total file size exceeds limit"
  else
    .ok (runBatchWindows env
      (chunkList SAFE_LIMITS.MAX_CONCURRENT_UPLOADS filesToUpload))

/-- Per-window results concatenate to a filter of the flattened windows:
only fulfilled outcomes are kept, in queue order. -/
theorem runBatchWindows_flatten (env : UploadEnv)
    (ws : List (List FileToUpload)) :
    runBatchWindows env ws =
      ws.flatten.filterMap (fun f => (perFileUpload env f).toOption) := by
  induction ws with
  | nil => rfl
  | cons batch rest ih =>
    simp [runBatchWindows, settledResults, ih, List.filterMap_append]

/-- C1 (amended): when the queue passes the total-size precheck, the
upload mutation never throws, whatever the per-item outcomes are; every
item of every window is processed and the returned value is exactly the
list of fulfilled results in queue order, whose length is the succeeded
count. Failed items are logged, not returned: the caller derives the
failed count as total minus succeeded, and the per-item failure reasons do
not appear in the returned value. -/
theorem uploadMutationFn_partial_failure (env : UploadEnv)
    (files : List FileToUpload)
    (h : getTotalUploadSize files ≤ SAFE_LIMITS.MAX_TOTAL_SIZE_PER_UPLOAD) :
    uploadMutationFn env files =
      .ok (files.filterMap (fun f => (perFileUpload env f).toOption)) := by
  rw [uploadMutationFn, if_neg (not_lt.mpr h), runBatchWindows_flatten,
    chunkList_flatten]

/-- Failing upload queue entry used in the concrete batch scenarios. -/
def fileA : FileToUpload := ⟨"a.txt", "file:///a.txt", "text/plain", 100⟩

/-- Succeeding upload queue entry used in the concrete batch scenarios. -/
def fileB : FileToUpload := ⟨"b.txt", "file:///b.txt", "text/plain", 200⟩

/-- Environment in which the object-store endpoint answers non-2xx for
fileA and every other round trip succeeds. -/
def envAB : UploadEnv where
  presign := fun f =>
    .ok ⟨"https://bucket.example/", "user1/" ++ f.name,
      [("key", "user1/" ++ f.name)]⟩
  s3UploadOk := fun f _ => f.name != "a.txt"
  createRecord := fun f _ => .ok ("id-" ++ f.name)

/-- Witness: in a two-item batch where fileA fails at the object store and
fileB succeeds, the mutation returns the fulfilled result for fileB
without throwing. -/
theorem uploadMutationFn_partial_failure_witness :
    uploadMutationFn envAB [fileA, fileB] =
      .ok [⟨"b.txt", "id-b.txt"⟩] := by
  rw [uploadMutationFn_partial_failure envAB [fileA, fileB] (by decide)]
  exact congrArg Except.ok (by decide)

/-- Counterexample to C1 as stated: fileA fails with a recorded reason,
the batch still returns successfully, but the returned value lists only
the succeeded item; no (item, reason) pair for the failed fileA occurs in
the result, whose entries never mention fileA. -/
theorem uploadMutationFn_failed_pair_not_returned :
    perFileUpload envAB fileA = .error "S3 upload failed for a.txt"
    ∧ uploadMutationFn envAB [fileA, fileB] = .ok [⟨"b.txt", "id-b.txt"⟩]
    ∧ ∀ r ∈ [(⟨"b.txt", "id-b.txt"⟩ : UploadResult)],
        r.fileName ≠ fileA.name := by
  refine ⟨?_, ?_, ?_⟩
  · simp [perFileUpload, envAB, fileA]
  · have hch : chunkList SAFE_LIMITS.MAX_CONCURRENT_UPLOADS [fileA, fileB] =
        [[fileA, fileB]] := by
      simp [chunkList, SAFE_LIMITS.MAX_CONCURRENT_UPLOADS]
    have htot : ¬ (SAFE_LIMITS.MAX_TOTAL_SIZE_PER_UPLOAD <
        getTotalUploadSize [fileA, fileB]) := by decide
    rw [uploadMutationFn, if_neg htot, hch]
    exact congrArg Except.ok (by decide)
  · simp [fileA]

/-- State of the batch controller loop: the windows not yet started, the
multiset of items launched and not yet settled, and the settled items.
Items of one window are launched together by `batch.map` and the loop
reaches the next window only after `Promise.allSettled` resolves. -/
structure BatchState (α : Type) where
  pending : List (List α)
  active : Multiset α
  done : Multiset α

/-- Small-step semantics of the controller loop: `load` starts the whole
next window, and only when no transfer is in flight, which is exactly the
await on `Promise.allSettled`; `settle` lets any in-flight item reach a
terminal state (fulfilled or rejected) in arbitrary order. -/
inductive BatchStep {α : Type} : BatchState α → BatchState α → Prop
  | load (w : List α) (ws : List (List α)) (d : Multiset α) :
      BatchStep ⟨w :: ws, 0, d⟩ ⟨ws, ↑w, d⟩
  | settle (x : α) (p : List (List α)) (a d : Multiset α) :
      BatchStep ⟨p, x ::ₘ a, d⟩ ⟨p, a, x ::ₘ d⟩

/-- Initial controller state: the queue is sliced into windows of size k
and nothing is in flight. -/
def batchInit {α : Type} (k : Nat) (items : List α) : BatchState α :=
  ⟨chunkList k items, 0, 0⟩

/-- States the controller can reach from the initial state. -/
def BatchReachable {α : Type} (k : Nat) (items : List α)
    (s : BatchState α) : Prop :=
  Relation.ReflTransGen BatchStep (batchInit k items) s

/-- Inductive invariant of the controller loop: either nothing has
started, or the windows split into fully consumed ones, the current
window, and the untouched remainder; the in-flight items all come from
the current window and together with the settled ones account exactly for
every item of the consumed windows. -/
def BatchInv {α : Type} (k : Nat) (items : List α)
    (s : BatchState α) : Prop :=
  s = batchInit k items ∨
  ∃ ws1 w ws2, chunkList k items = ws1 ++ w :: ws2 ∧ s.pending = ws2 ∧
    s.active ≤ (w : Multiset α) ∧
    s.active + s.done = ↑((ws1 ++ [w]).flatten)

/-- The invariant is preserved by every controller step. -/
theorem batchInv_step {α : Type} {k : Nat} {items : List α}
    {s s' : BatchState α} (hinv : BatchInv k items s)
    (hstep : BatchStep s s') : BatchInv k items s' := by
  cases hstep with
  | load w ws d =>
    rcases hinv with heq | ⟨ws1, w0, ws2, hW, hp, ha, hsum⟩
    · simp only [batchInit, BatchState.mk.injEq] at heq
      obtain ⟨h1, -, h3⟩ := heq
      right
      refine ⟨[], w, ws, h1.symm, rfl, le_rfl, ?_⟩
      subst h3
      simp
    · simp only at hp ha hsum
      right
      refine ⟨ws1 ++ [w0], w, ws, ?_, rfl, le_rfl, ?_⟩
      · rw [hW, ← hp]
        simp
      · have hd : d = ↑((ws1 ++ [w0]).flatten) := by
          simpa using hsum
        subst hd
        have h1 : ((ws1 ++ [w0]) ++ [w]).flatten =
            (ws1 ++ [w0]).flatten ++ w := by simp
        rw [h1, ← Multiset.coe_add]
        abel
  | settle x p a d =>
    rcases hinv with heq | ⟨ws1, w0, ws2, hW, hp, ha, hsum⟩
    · exfalso
      simp only [batchInit, BatchState.mk.injEq] at heq
      exact Multiset.cons_ne_zero heq.2.1
    · simp only at hp ha hsum
      right
      refine ⟨ws1, w0, ws2, hW, hp, ?_, ?_⟩
      · exact le_trans (Multiset.le_cons_self a x) ha
      · have hcomm : a + (x ::ₘ d) = (x ::ₘ a) + d := by
          rw [Multiset.add_cons, Multiset.cons_add]
        rw [hcomm, hsum]

/-- Every reachable controller state satisfies the invariant. -/
theorem batchReachable_inv {α : Type} {k : Nat} {items : List α}
    {s : BatchState α} (h : BatchReachable k items s) :
    BatchInv k items s := by
  induction h with
  | refl => exact Or.inl rfl
  | tail hsteps hstep ih => exact batchInv_step ih hstep

/-- C2: the controller partitions the queue into consecutive windows of at
most k items whose concatenation is the queue, the window size constant of
the source is 3, and in every reachable state at most k transfers are in
flight; moreover all in-flight items belong to the single current window
and every item of every earlier window has already settled, so no item of
window i+1 starts before window i fully terminates. -/
theorem runBatch_window_discipline {α : Type} (k : Nat) (items : List α)
    (hk : k ≠ 0) :
    ((chunkList k items).flatten = items
      ∧ ∀ w ∈ chunkList k items, w.length ≤ k)
    ∧ SAFE_LIMITS.MAX_CONCURRENT_UPLOADS = 3
    ∧ ∀ s : BatchState α, BatchReachable k items s →
        Multiset.card s.active ≤ k
        ∧ (s = batchInit k items ∨
           ∃ ws1 w ws2, chunkList k items = ws1 ++ w :: ws2
             ∧ s.pending = ws2
             ∧ (∀ x ∈ s.active, x ∈ w)
             ∧ (↑(ws1.flatten) : Multiset α) ≤ s.done) := by
  refine ⟨⟨chunkList_flatten k items,
    fun w hw => (chunkList_mem k hk items w hw).1⟩, rfl, ?_⟩
  intro s hs
  rcases batchReachable_inv hs with heq | ⟨ws1, w0, ws2, hW, hp, ha, hsum⟩
  · subst heq
    simp [batchInit]
  · have hw0 : w0 ∈ chunkList k items := by
      rw [hW]
      exact List.mem_append_right ws1 (List.mem_cons_self w0 ws2)
    constructor
    · calc Multiset.card s.active ≤ Multiset.card (↑w0 : Multiset α) :=
            Multiset.card_le_card ha
        _ = w0.length := by simp
        _ ≤ k := (chunkList_mem k hk items w0 hw0).1
    · right
      refine ⟨ws1, w0, ws2, hW, hp, ?_, ?_⟩
      · intro x hx
        have hmem := Multiset.mem_of_le ha hx
        simpa using hmem
      · obtain ⟨c, hc⟩ := Multiset.le_iff_exists_add.mp ha
        have h2 : s.active + s.done = s.active + (↑ws1.flatten + c) := by
          rw [hsum]
          have hfl : ((ws1 ++ [w0]).flatten : List α) = ws1.flatten ++ w0 := by
            simp [List.flatten_append]
          rw [hfl, ← Multiset.coe_add, hc]
          abel
        have h3 : s.done = ↑ws1.flatten + c := add_left_cancel h2
        exact Multiset.le_iff_exists_add.mpr ⟨c, h3⟩

/-- Witness: with four items and window size 3, the state reached after
launching the first window has all three items of that window in flight,
within the concurrency bound. -/
theorem runBatch_window_discipline_witness :
    Multiset.card
      ((⟨[[3]], (↑([0, 1, 2] : List Nat) : Multiset Nat), 0⟩ :
        BatchState Nat).active) ≤ 3 := by
  have hinit : batchInit 3 [0, 1, 2, 3] =
      (⟨[[0, 1, 2], [3]], 0, 0⟩ : BatchState Nat) := by
    simp [batchInit, chunkList]
  have hreach : BatchReachable 3 [0, 1, 2, 3]
      ⟨[[3]], ↑([0, 1, 2] : List Nat), 0⟩ := by
    unfold BatchReachable
    rw [hinit]
    exact Relation.ReflTransGen.single (BatchStep.load [0, 1, 2] [[3]] 0)
  exact ((runBatch_window_discipline 3 [0, 1, 2, 3] (by decide)).2.2 _
    hreach).1

/-- Value of a JavaScript number as it arises in the progress callback: a
finite value, NaN, or a signed infinity. Finite values are modelled as
exact rationals; the byte counts delivered by the transport are integers,
and none of the claims below depends on double rounding. -/
inductive JSNum where
  | fin (q : Rat)
  | nan
  | posInf
  | negInf
  deriving DecidableEq, Repr

/-- Embedding of the progress callback of `downloadFile`:
`progress = totalBytesWritten / totalBytesExpectedToWrite`, a bare
JavaScript division with no zero guard and no clamping, so a zero
denominator produces NaN or a signed infinity per IEEE-754 semantics. -/
def downloadProgressFraction
    (totalBytesWritten totalBytesExpectedToWrite : Rat) : JSNum :=
  if totalBytesExpectedToWrite = 0 then
    if totalBytesWritten = 0 then .nan
    else if 0 < totalBytesWritten then .posInf
    else .negInf
  else .fin (totalBytesWritten / totalBytesExpectedToWrite)

/-- Test that a computed progress value is a finite fraction in [0, 1]. -/
def inUnitInterval : JSNum → Bool
  | .fin q => decide (0 ≤ q ∧ q ≤ 1)
  | _ => false

/-- Counterexample to C3 as stated: at bytesTotal = 0 with bytesSent =
100 the computed progress is positive infinity, not 0, and lies outside
[0, 1]. -/
theorem downloadProgressFraction_div_by_zero :
    downloadProgressFraction 100 0 = JSNum.posInf
    ∧ downloadProgressFraction 100 0 ≠ JSNum.fin 0
    ∧ inUnitInterval (downloadProgressFraction 100 0) = false := by
  refine ⟨?_, ?_, ?_⟩ <;> decide

/-- C3 (amended): the progress callback performs the bare division with
no clamping and no zero guard; the fraction lies in [0, 1] exactly when
the callback inputs are well formed, that is 0 ≤ bytesSent ≤ bytesTotal
with bytesTotal positive, and at bytesTotal = 0 the computed value is NaN
or a signed infinity, never 0. -/
theorem downloadProgressFraction_unclamped
    (totalBytesWritten totalBytesExpectedToWrite : Rat)
    (h0 : 0 ≤ totalBytesWritten)
    (hwt : totalBytesWritten ≤ totalBytesExpectedToWrite)
    (ht : 0 < totalBytesExpectedToWrite) :
    downloadProgressFraction totalBytesWritten totalBytesExpectedToWrite =
      .fin (totalBytesWritten / totalBytesExpectedToWrite)
    ∧ 0 ≤ totalBytesWritten / totalBytesExpectedToWrite
    ∧ totalBytesWritten / totalBytesExpectedToWrite ≤ 1 := by
  refine ⟨?_, div_nonneg h0 ht.le, ?_⟩
  · rw [downloadProgressFraction, if_neg (ne_of_gt ht)]
  · rw [div_le_one ht]
    exact hwt

/-- Witness: 50 bytes of 100 give the fraction one half, inside [0, 1]. -/
theorem downloadProgressFraction_unclamped_witness :
    downloadProgressFraction 50 100 = JSNum.fin (50 / 100)
    ∧ 0 ≤ (50 : Rat) / 100 ∧ (50 : Rat) / 100 ≤ 1 :=
  downloadProgressFraction_unclamped 50 100 (by norm_num) (by norm_num)
    (by norm_num)

/-- Observable outcome of one run of the delete-file mutation: whether
the database row was removed, the console log entries, and the value or
error the mutation settles with. -/
structure DeleteOutcome where
  dbRowDeleted : Bool
  log : List String
  result : Except String Unit
  deriving Repr

/-- Embedding of `useDeleteFileMutation.mutationFn`: the database delete
runs first and throws on its own error; only then the delete-file edge
function runs, and on failure the mutation logs the orphaned-object
situation and then rethrows. -/
def deleteFileMutationFn (dbError s3Error : Option String) : DeleteOutcome :=
  match dbError with
  | some e => ⟨false, [], .error e⟩
  | none =>
    match s3Error with
    | some e =>
      ⟨true, ["S3 deletion failed, but DB record was deleted: " ++ e],
        .error ("S3 deletion failed: " ++ e)⟩
    | none => ⟨true, [], .ok ()⟩

/-- Alert shown to the user by `handleDelete` in the file manager. -/
inductive AlertKind where
  | success (message : String)
  | failure (message : String)
  deriving DecidableEq, Repr

/-- Embedding of `handleDelete` for a file item: it awaits the delete
mutation and shows the success alert, and its catch block turns any
mutation rejection into a blocking error alert. -/
def handleDeleteFile (itemName : String) (dbError s3Error : Option String) :
    DeleteOutcome × AlertKind :=
  let outcome := deleteFileMutationFn dbError s3Error
  match outcome.result with
  | .ok _ => (outcome, .success (itemName ++ " has been deleted."))
  | .error m =>
    (outcome, .failure ("Failed to delete " ++ itemName ++ ". " ++ m))

/-- Counterexample to C4 as stated: when the object-store deletion fails,
the database row is indeed already removed, but the failure is rethrown
by the mutation and `handleDelete` surfaces it to the user as a blocking
error alert rather than only logging it. -/
theorem deleteFile_s3failure_surfaced :
    (handleDeleteFile "report.pdf" none (some "network down")).2 =
      AlertKind.failure
        "Failed to delete report.pdf. S3 deletion failed: network down"
    ∧ (deleteFileMutationFn none (some "network down")).dbRowDeleted
        = true :=
  ⟨rfl, rfl⟩

/-- C4 (amended): the database delete happens first, so a failing
delete-object call still leaves the row removed and the failure is
logged; however the mutation rethrows the object-store error, so the
caller shows a blocking "Failed to delete" alert instead of treating it
as a warning. A database-delete error aborts before the object-store call
is attempted. -/
theorem deleteFileMutationFn_spec (s3msg : String) :
    (deleteFileMutationFn none (some s3msg)).dbRowDeleted = true
    ∧ (deleteFileMutationFn none (some s3msg)).log =
        ["S3 deletion failed, but DB record was deleted: " ++ s3msg]
    ∧ (deleteFileMutationFn none (some s3msg)).result =
        .error ("S3 deletion failed: " ++ s3msg)
    ∧ (∀ itemName, (handleDeleteFile itemName none (some s3msg)).2 =
        .failure ("Failed to delete " ++ itemName ++ ". " ++
          ("S3 deletion failed: " ++ s3msg)))
    ∧ (∀ dbMsg s3Error, deleteFileMutationFn (some dbMsg) s3Error =
        ⟨false, [], .error dbMsg⟩) :=
  ⟨rfl, rfl, rfl, fun _ => rfl, fun _ _ => rfl⟩

/-- Network-visible events of one upload, across client and broker: the
presign request, a database insert of the file record under a key, the
object-store transfer with its HTTP success flag, and the
create-file-record commit request. -/
inductive UploadEvent where
  | presignRequest
  | dbInsert (s3Key : String)
  | s3Transfer (s3Key : String) (ok : Bool)
  | commitRequest (s3Key : String)
  deriving DecidableEq, Repr

/-- Discriminator for database-insert events. -/
def isDbInsert : UploadEvent → Bool
  | .dbInsert _ => true
  | _ => false

/-- Discriminator for successful byte-transfer events. -/
def isTransferOk : UploadEvent → Bool
  | .s3Transfer _ true => true
  | _ => false

/-- Trace of one item under the action-multiplexed flow used by the
client: get-presigned-url performs no database write, the object-store
POST follows, and only a 2xx transfer leads to the create-file-record
call, whose handler inserts the metadata row. -/
def perFileUploadTrace (env : UploadEnv) (file : FileToUpload) :
    List UploadEvent :=
  match env.presign file with
  | .error _ => [.presignRequest]
  | .ok pd =>
    if env.s3UploadOk file pd then
      [.presignRequest, .s3Transfer pd.s3Key true,
       .commitRequest pd.s3Key, .dbInsert pd.s3Key]
    else
      [.presignRequest, .s3Transfer pd.s3Key false]

/-- Trace of one item under the legacy single-request handler in
upload-to-s3/index.ts: that handler generates the key, signs the upload
and inserts the file record in the same request that answers the presign
call, before the client transfers any bytes. -/
def legacyUploadTrace (s3Key : String) (transferOk : Bool) :
    List UploadEvent :=
  [.presignRequest, .dbInsert s3Key, .s3Transfer s3Key transferOk]

/-- Ordering property asserted by the claim: every database insert of a
file record is strictly preceded by a successful byte transfer. -/
def recordOnlyAfterTransfer (tr : List UploadEvent) : Prop :=
  ∀ i : Fin tr.length, isDbInsert (tr.get i) = true →
    ∃ j : Fin tr.length, j < i ∧ isTransferOk (tr.get j) = true

instance recordOnlyAfterTransfer.decidable (tr : List UploadEvent) :
    Decidable (recordOnlyAfterTransfer tr) := by
  unfold recordOnlyAfterTransfer
  infer_instance

/-- The commit request of the client flow always carries exactly the key
returned by the broker presign response, and occurs only after a
successful transfer. -/
theorem commitRequest_key_eq (env : UploadEnv) (file : FileToUpload)
    (key : String)
    (h : UploadEvent.commitRequest key ∈ perFileUploadTrace env file) :
    ∃ pd, env.presign file = .ok pd ∧ key = pd.s3Key
      ∧ env.s3UploadOk file pd = true := by
  unfold perFileUploadTrace at h
  cases hpre : env.presign file with
  | error e =>
    rw [hpre] at h
    simp at h
  | ok pd =>
    rw [hpre] at h
    dsimp only at h
    by_cases hup : env.s3UploadOk file pd = true
    · rw [if_pos hup] at h
      simp at h
      exact ⟨pd, rfl, h, hup⟩
    · rw [if_neg hup] at h
      simp at h

/-- C8 (amended): in the action-multiplexed flow driven by the client,
every database insert of a FileRecord happens strictly after a successful
byte transfer, and the commit request is issued only with the key of a
presign response whose transfer reported success. The repository also
retains the legacy handler, which instead inserts the row while answering
the presign request; that behaviour is exhibited separately. -/
theorem perFileUploadTrace_commit_after_transfer (env : UploadEnv)
    (file : FileToUpload) :
    recordOnlyAfterTransfer (perFileUploadTrace env file)
    ∧ (∀ key, UploadEvent.commitRequest key ∈ perFileUploadTrace env file →
        ∃ pd, env.presign file = .ok pd ∧ key = pd.s3Key
          ∧ env.s3UploadOk file pd = true) := by
  constructor
  · unfold recordOnlyAfterTransfer perFileUploadTrace
    cases hpre : env.presign file with
    | error e =>
      intro i hi
      fin_cases i
      simp [isDbInsert] at hi
    | ok pd =>
      dsimp only
      by_cases hup : env.s3UploadOk file pd = true
      · rw [if_pos hup]
        intro i hi
        obtain ⟨iv, hlt⟩ := i
        simp only [List.length_cons, List.length_nil] at hlt ⊢
        interval_cases iv
        · simp [isDbInsert] at hi
        · simp [isDbInsert] at hi
        · simp [isDbInsert] at hi
        · exact ⟨⟨1, by omega⟩, Fin.mk_lt_mk.mpr (by omega),
            by simp [isTransferOk]⟩
      · rw [if_neg hup]
        intro i hi
        fin_cases i <;> simp [isDbInsert] at hi
  · exact commitRequest_key_eq env file

/-- Witness: in the environment where fileB uploads successfully, the
client flow trace for fileB creates the record only after the successful
transfer. -/
theorem perFileUploadTrace_commit_after_transfer_witness :
    recordOnlyAfterTransfer (perFileUploadTrace envAB fileB) :=
  (perFileUploadTrace_commit_after_transfer envAB fileB).1

/-- Counterexample to C8 as stated: under the legacy handler the trace of
an upload holds the database insert at position 1, before the byte
transfer at position 2, so a FileRecord row exists before the transfer
succeeds. -/
theorem legacyUpload_record_before_transfer :
    legacyUploadTrace "user1/123-abc-report.pdf" true =
      [.presignRequest, .dbInsert "user1/123-abc-report.pdf",
       .s3Transfer "user1/123-abc-report.pdf" true]
    ∧ ¬ recordOnlyAfterTransfer
        (legacyUploadTrace "user1/123-abc-report.pdf" true) :=
  ⟨rfl, by decide⟩

/-- Embedding of the object-key generation of the get-presigned-url
handler: `userId/timestamp-randomSuffix-fileName`, with the
client-supplied file name interpolated verbatim. -/
def generateS3Key (userId : String) (timestamp : Nat)
    (randomSuffix fileName : String) : String :=
  userId ++ "/" ++ toString timestamp ++ "-" ++ randomSuffix ++ "-" ++
    fileName

/-- Modelled from the spec: the weakest guarantee of composing the key
from a sanitized form of the original file name is that the name
component injects no extra path separators, so for an owner id and random
suffix without slashes the key holds exactly one slash. -/
def generateS3Key_usesSanitizedName : Prop :=
  ∀ (timestamp : Nat) (fileName : String),
    ((generateS3Key "owner" timestamp "abc123" fileName).data.count '/') = 1

/-- Counterexample to C9 as stated: a file named "a/b" is embedded
verbatim in the generated key, which then holds two path separators, so
the key is not composed from a sanitized form of the name. -/
theorem generateS3Key_not_sanitized :
    generateS3Key "owner" 7 "abc123" "a/b" = "owner/7-abc123-a/b"
    ∧ ¬ generateS3Key_usesSanitizedName := by
  constructor
  · rfl
  · intro h
    exact absurd (h 7 "a/b") (by decide)

/-- C9 (amended): the object key is generated backend-side as the owner
id, a slash, the timestamp, the random suffix and the original file name
verbatim, with no sanitization; the client never derives a key and only
passes the broker-returned key through to the commit call. -/
theorem generateS3Key_composition (userId : String) (timestamp : Nat)
    (randomSuffix fileName : String) :
    generateS3Key userId timestamp randomSuffix fileName =
      userId ++ "/" ++ toString timestamp ++ "-" ++ randomSuffix ++ "-" ++
        fileName
    ∧ (∀ (env : UploadEnv) (file : FileToUpload) (key : String),
        UploadEvent.commitRequest key ∈ perFileUploadTrace env file →
        ∃ pd, env.presign file = .ok pd ∧ key = pd.s3Key) := by
  refine ⟨rfl, ?_⟩
  intro env file key h
  obtain ⟨pd, h1, h2, -⟩ := commitRequest_key_eq env file key h
  exact ⟨pd, h1, h2⟩

/-- Witness: the key committed for fileB is exactly the key of the broker
presign response. -/
theorem generateS3Key_composition_witness :
    ∃ pd, envAB.presign fileB = .ok pd ∧ "user1/b.txt" = pd.s3Key :=
  (generateS3Key_composition "user1" 7 "abc123" "b.txt").2 envAB fileB
    "user1/b.txt" (by decide)
